import Mathlib

/-!
Verification development for the 24cal4with-sheet repository: a Next.js
scheduling tool whose API route translates "study slot" events into Google
Calendar insert/list/delete calls and mirrors rows into a Google Sheet.

The definitions below are a shallow embedding of the TypeScript source:
  - the POST handler of src/app/api/events-sheet-yt/route.ts (addAll /
    removeAll, authenticate, body validation),
  - the UI helpers updateEvents / handleBulkPaste / getDatesBetween from the
    page component bundled with that route and from src/app/page.tsx,
  - the sheet-clearing call of the sheet-sync variants.

JavaScript strings are modelled as Lean String values; the handful of
JavaScript string methods the source uses (split, trim, slice, padStart,
template interpolation of numbers) are re-implemented below on the
underlying character lists so that every definition is executable and
kernel-reducible.  Timestamps are modelled as integer seconds since the Unix
epoch; the configured time zone Asia/Kolkata has the fixed offset +05:30
(19800 seconds), with no daylight saving, so conversion to a local calendar
date is exact integer arithmetic.
-/

set_option maxRecDepth 4000
set_option maxHeartbeats 1000000

namespace CalSheet

/-! ### JavaScript string primitives -/

/-- Characters treated as whitespace by the model (the common core of the
JavaScript regular-expression class for whitespace and of trim). -/
def isJsWs (c : Char) : Bool :=
  c = ' ' || c = '\t' || c = '\n' || c = '\r'

/-- Rebuild a string from a character list. -/
def ofChars (cs : List Char) : String := String.mk cs

/-- Helper for jsSplitChar: walk the characters, cutting at the separator. -/
def splitCharAux (sep : Char) : List Char → List Char → List String
  | [], cur => [ofChars cur.reverse]
  | c :: rest, cur =>
      if c = sep then ofChars cur.reverse :: splitCharAux sep rest []
      else splitCharAux sep rest (c :: cur)

/-- Model of the JavaScript split method with a one-character separator:
an empty input yields a single empty piece, and separators at the
boundaries yield empty pieces, exactly as in JavaScript. -/
def jsSplitChar (sep : Char) (s : String) : List String :=
  splitCharAux sep s.data []

/-- Model of the JavaScript trim method. -/
def jsTrim (s : String) : String :=
  ofChars (((s.data.dropWhile isJsWs).reverse.dropWhile isJsWs).reverse)

/-- Model of the JavaScript slice method applied as slice of zero to n. -/
def jsTake (n : Nat) (s : String) : String :=
  ofChars (s.data.take n)

/-- Fuel-driven worker for splitWs; the fuel starts at the character count,
which always suffices, and keeps the recursion structural. -/
def splitWsAux : Nat → List Char → List Char → List String
  | _, [], cur => [ofChars cur.reverse]
  | 0, cs, cur => [ofChars (cur.reverse ++ cs)]
  | fuel + 1, c :: rest, cur =>
      if isJsWs c then
        ofChars cur.reverse :: splitWsAux fuel (rest.dropWhile isJsWs) []
      else
        splitWsAux fuel rest (c :: cur)

/-- Model of the JavaScript split on the whitespace-run regular expression:
cuts at maximal whitespace runs, keeping empty pieces at the boundaries. -/
def splitWs (s : String) : List String :=
  splitWsAux s.data.length s.data []

/-- The decimal digit characters. -/
def digitChar : Nat → Char
  | 0 => '0' | 1 => '1' | 2 => '2' | 3 => '3' | 4 => '4'
  | 5 => '5' | 6 => '6' | 7 => '7' | 8 => '8' | _ => '9'

/-- Fuel-driven decimal rendering of a natural number. -/
def natDigitsAux : Nat → Nat → List Char
  | 0, _ => []
  | fuel + 1, n =>
      if n < 10 then [digitChar n]
      else natDigitsAux fuel (n / 10) ++ [digitChar (n % 10)]

/-- Model of JavaScript template interpolation of a nonnegative number. -/
def natToString (n : Nat) : String :=
  ofChars (natDigitsAux (n + 1) n)

/-- Model of JavaScript template interpolation of an integer. -/
def intToString (z : Int) : String :=
  if z < 0 then "-" ++ natToString (-z).toNat else natToString z.toNat

/-- Model of padStart of width two with the zero character, applied to the
decimal rendering of a number, as in the sources. -/
def pad2 (n : Nat) : String :=
  if n < 10 then "0" ++ natToString n else natToString n

/-- Numeric value of a decimal digit character, none for other characters. -/
def digitVal (c : Char) : Option Nat :=
  if c.isDigit then some (c.toNat - 48) else none

/-- Parse a run of decimal digits; none when a non-digit occurs or the run
is empty. -/
def natOfDigits (cs : List Char) : Option Nat :=
  match cs with
  | [] => none
  | _ =>
    cs.foldl (fun acc c =>
      match acc, digitVal c with
      | some n, some d => some (n * 10 + d)
      | _, _ => none) (some 0)

/-- Parse a string of decimal digits of the given exact length. -/
def fixedNat (len : Nat) (s : String) : Option Nat :=
  if s.data.length = len then natOfDigits s.data else none

/-! ### Civil calendar arithmetic

Standard day-number conversions for the proleptic Gregorian calendar
(day zero is 1970-01-01), used to model both the JavaScript Date local
calendar fields and the toLocaleDateString conversion for the fixed-offset
zone Asia/Kolkata. -/

/-- From a day number to the civil date (year, month, day). -/
def civilFromDays (z : Int) : Int × Nat × Nat :=
  let z' := z + 719468
  let era := z'.fdiv 146097
  let doe := (z' - era * 146097).toNat
  let yoe := (doe - doe / 1460 + doe / 36524 - doe / 146096) / 365
  let y : Int := (yoe : Int) + era * 400
  let doy := doe - (365 * yoe + yoe / 4 - yoe / 100)
  let mp := (5 * doy + 2) / 153
  let d := doy - (153 * mp + 2) / 5 + 1
  let m := if mp < 10 then mp + 3 else mp - 9
  (if m ≤ 2 then y + 1 else y, m, d)

/-- From a civil date (year, month, day) to its day number. -/
def daysFromCivil (y : Int) (m d : Nat) : Int :=
  let y' := if m ≤ 2 then y - 1 else y
  let era := y'.fdiv 400
  let yoe := (y' - era * 400).toNat
  let doy := (153 * (if m > 2 then m - 3 else m + 9) + 2) / 5 + d - 1
  let doe := yoe * 365 + yoe / 4 - yoe / 100 + doy
  era * 146097 + (doe : Int) - 719468

/-- Whether a year is a Gregorian leap year. -/
def isLeap (y : Nat) : Bool :=
  y % 4 = 0 && (y % 100 ≠ 0 || y % 400 = 0)

/-- Number of days in a month. -/
def daysInMonth (y m : Nat) : Nat :=
  if m = 2 then (if isLeap y then 29 else 28)
  else if m = 4 || m = 6 || m = 9 || m = 11 then 30
  else 31

/-- Render a day number as a calendar-date string of the shape used both by
the getDatesBetween formatting (getFullYear, getMonth plus one and getDate,
each padded to two digits) and by toLocaleDateString with the en-CA locale. -/
def formatCivilDate (z : Int) : String :=
  let c := civilFromDays z
  intToString c.1 ++ "-" ++ pad2 c.2.1 ++ "-" ++ pad2 c.2.2

/-- The fixed offset of the configured zone Asia/Kolkata, in seconds. -/
def istOffsetSecs : Int := 19800

/-- Model of toLocaleDateString with locale en-CA and time zone Asia/Kolkata
applied to a timestamp in seconds since the epoch: shift by the fixed
offset, take the civil day, and render it as YYYY-MM-DD. -/
def toLocalDateEnCA (t : Int) : String :=
  formatCivilDate ((t + istOffsetSecs).fdiv 86400)

/-- Strict parse of a calendar-date string YYYY-MM-DD to its day number,
following the ECMAScript date-time string format: four-digit year,
two-digit month and day, and a day valid for the month.  Malformed strings
give none, matching an invalid JavaScript Date. -/
def parseDate (s : String) : Option Int :=
  match jsSplitChar '-' s with
  | [ys, ms, ds] =>
    match fixedNat 4 ys, fixedNat 2 ms, fixedNat 2 ds with
    | some y, some m, some d =>
      if 1 ≤ m && m ≤ 12 && 1 ≤ d && d ≤ daysInMonth y m then
        some (daysFromCivil (y : Int) m d)
      else none
    | _, _, _ => none
  | _ => none

/-- Strict parse of a time string HH:MM:SS to seconds of day, following the
ECMAScript date-time string format. -/
def parseTime (s : String) : Option Nat :=
  match jsSplitChar ':' s with
  | [hs, ms, ss] =>
    match fixedNat 2 hs, fixedNat 2 ms, fixedNat 2 ss with
    | some h, some m, some sec =>
      if h ≤ 23 && m ≤ 59 && sec ≤ 59 then some (3600 * h + 60 * m + sec)
      else none
    | _, _, _ => none
  | _ => none

/-- Strict parse of a local date-time string of the shape produced by the
handler, date part and time part joined by the letter T; yields a local
timestamp in seconds.  A string on which this parse fails models a string
on which the JavaScript Date constructor yields an invalid date, so that
toISOString would throw. -/
def parseLocalDT (s : String) : Option Int :=
  match jsSplitChar 'T' s with
  | [ds, ts] =>
    match parseDate ds, parseTime ts with
    | some day, some sec => some (day * 86400 + (sec : Int))
    | _, _ => none
  | _ => none

/-! ### Data model

The Event interface of the sources, and a model of the Google Calendar
objects and calls the route handler exchanges with the external service. -/

/-- The Event interface shared by the route and the page components. -/
structure Event where
  start : String
  «end» : String
  title : String
  youtubeHindi : String
  youtubeEnglish : String
  youtubePlaylistHindi : String
  youtubePlaylistEnglish : String
  timeZone : String
  deriving Repr, DecidableEq, Inhabited

/-- Model of a fetched Google Calendar event (Schema Event): the opaque
identifier when present, and the start dateTime represented by the instant
it denotes, in seconds since the epoch; none models an all-day event or an
event without a timed start. -/
structure CalEvent where
  id : Option String
  startDT : Option Int
  summary : String
  deriving Repr, DecidableEq, Inhabited

/-- One external Google API call issued by the handler.  For insert, the
start and the stop are recorded as the local date-time strings the handler
constructs; the request body carries their toISOString rendering together
with the time-zone field, an injective re-encoding of the same instants. -/
inductive ExtCall where
  | insert (calendarId summary description startLocal endLocal : String)
  | listEvents (calendarId dateStr : String)
  | delete (calendarId eventId : String)
  deriving Repr, DecidableEq

/-- An HTTP response: status code and the message or error string of the
JSON body. -/
structure Response where
  status : Nat
  body : String
  deriving Repr, DecidableEq

/-- Model of the parsed GOOGLE_SERVICE_ACCOUNT_KEY environment variable:
optional per-account nested credential blobs, and the whole object usable
as a flat credential blob.  Credential blobs are opaque strings. -/
structure ServiceKeys where
  entries : List (String × String)
  flat : String
  deriving Repr, DecidableEq

/-- Static configuration of the route: the CALENDAR_IDS table (a name
resolves to a calendar identifier when its environment variable is set) and
the parsed service-account keys (none when the variable is missing or does
not parse). -/
structure Env where
  calendarIds : List (String × String)
  keys : Option ServiceKeys
  deriving Repr, DecidableEq

/-- The parsed JSON body of a POST request. -/
structure PostBody where
  action : String
  events : Option (List Event)
  selectedDate : Option String
  dates : Option (List String)
  isRangeMode : Bool
  deriving Repr, DecidableEq

/-- A POST request: the name query parameter, the calendarAccount query
parameter, and the body, where none models a body that is not valid JSON. -/
structure PostRequest where
  name : Option String
  calendarAccount : String
  body : Option PostBody
  deriving Repr, DecidableEq

/-! ### authenticate -/

/-- Embedding of the authenticate helper of the route: the account argument
is forced to Home, the credentials are the nested entry for that account
when present and otherwise the whole key object, and missing keys give a
500 response.  Constructing the client from an object that is present
always succeeds. -/
def authenticate (keys : Option ServiceKeys) (calendarAccount : String) :
    Except Response String :=
  let account := if calendarAccount = "Home" then calendarAccount else "Home"
  match keys with
  | none =>
      .error ⟨500, "Service account credentials missing for " ++ account⟩
  | some k =>
      .ok ((((k.entries.find? (fun p => p.fst = account)).map Prod.snd)).getD k.flat)

/-! ### addAll -/

/-- The description string the handler synthesizes from the link fields. -/
def descriptionOf (evt : Event) : String :=
  "Hindi: " ++ evt.youtubeHindi ++ "\n" ++
  "English: " ++ evt.youtubeEnglish ++ "\n" ++
  "Playlist (Hindi): " ++ evt.youtubePlaylistHindi ++ "\n" ++
  "Playlist (English): " ++ evt.youtubePlaylistEnglish

/-- The hour extraction of the addAll loop: split the start of the event at
the letter T, take the second piece, keep its first two characters.  A
start without a T gives none, on which the original code throws a TypeError
that escapes the per-call try block. -/
def hourOf (s : String) : Option String :=
  ((jsSplitChar 'T' s).get? 1).map (jsTake 2)

/-- The two per-slot windows the handler builds for a date and an hour
string: the marker window hh:00 to hh:05 and the content window hh:10 to
hh:50. -/
def slotPairs (dateStr hour : String) : List (String × String) :=
  [ (dateStr ++ "T" ++ hour ++ ":00:00", dateStr ++ "T" ++ hour ++ ":05:00"),
    (dateStr ++ "T" ++ hour ++ ":10:00", dateStr ++ "T" ++ hour ++ ":50:00") ]

/-- The inner per-slot loop of addAll.  For each window, the handler builds
the request body, converting both local strings with the Date constructor
and toISOString: when either string does not parse, the conversion throws
inside the per-call try block, so no call is issued and the loop continues.
When both parse, one insert call is issued; its success is decided by the
oracle ok at the current call index.  Returns the issued calls, the number
of successes, and the next call index. -/
def runSlots (ok : Nat → Bool) (calendarId : String) (evt : Event) :
    List (String × String) → Nat → List ExtCall × Nat × Nat
  | [], k => ([], 0, k)
  | (s, e) :: rest, k =>
      if (parseLocalDT s).isSome && (parseLocalDT e).isSome then
        let succ := if ok k then 1 else 0
        let r := runSlots ok calendarId evt rest (k + 1)
        (ExtCall.insert calendarId evt.title (descriptionOf evt) s e :: r.1,
         succ + r.2.1, r.2.2)
      else
        runSlots ok calendarId evt rest k

/-- The per-event loop of addAll for one date.  The hour extraction happens
outside the per-call try block, so a start without a T aborts the whole
request; the error carries the calls issued before the crash. -/
def runEvents (ok : Nat → Bool) (calendarId dateStr : String) :
    List Event → Nat → Except (List ExtCall) (List ExtCall × Nat × Nat)
  | [], k => .ok ([], 0, k)
  | evt :: rest, k =>
      match hourOf evt.start with
      | none => .error []
      | some hour =>
          let r := runSlots ok calendarId evt (slotPairs dateStr hour) k
          match runEvents ok calendarId dateStr rest r.2.2 with
          | .error cs => .error (r.1 ++ cs)
          | .ok (cs, n, k') => .ok (r.1 ++ cs, r.2.1 + n, k')

/-- The per-date loop of addAll. -/
def runDates (ok : Nat → Bool) (calendarId : String) (events : List Event) :
    List String → Nat → Except (List ExtCall) (List ExtCall × Nat × Nat)
  | [], k => .ok ([], 0, k)
  | d :: rest, k =>
      match runEvents ok calendarId d events k with
      | .error cs => .error cs
      | .ok (cs, n, k') =>
          match runDates ok calendarId events rest k' with
          | .error cs₂ => .error (cs ++ cs₂)
          | .ok (cs₂, n₂, k₂) => .ok (cs ++ cs₂, n + n₂, k₂)

/-! ### removeAll -/

/-- The events a list call for one date fetches: the external service
rejects an unparsable time window (the caught error breaks the page loop),
and otherwise returns the events whose timed start lies in the window from
the date at 00:00:00 to the date at 23:59:59 at offset +05:30.  Pagination
is transparent: the model returns all pages at once. -/
def fetchedEvents (cal : List CalEvent) (dateStr : String) : List CalEvent :=
  match parseDate dateStr with
  | none => []
  | some day =>
      cal.filter (fun e =>
        match e.startDT with
        | none => false
        | some t =>
            decide (day * 86400 - istOffsetSecs ≤ t) &&
            decide (t ≤ day * 86400 - istOffsetSecs + 86399))

/-- The filter predicate of removeAll: an event is kept when it has a timed
start whose conversion to the configured local time zone, rendered with the
en-CA locale, equals the target date string. -/
def matchesLocalDate (dateStr : String) (e : CalEvent) : Bool :=
  match e.startDT with
  | none => false
  | some t => toLocalDateEnCA t == dateStr

/-- The events the handler selects for deletion on one date: the fetched
events restricted by the local-date filter. -/
def eventsToDelete (cal : List CalEvent) (dateStr : String) : List CalEvent :=
  (fetchedEvents cal dateStr).filter (matchesLocalDate dateStr)

/-- Deletion of one event by identifier in the external calendar. -/
def deleteById (i : String) (cal : List CalEvent) : List CalEvent :=
  cal.filter (fun e => e.id ≠ some i)

/-- The sequential deletion loop: each selected event with an identifier is
deleted from the external calendar; events without an identifier are
skipped. -/
def deleteFold (toDel : List CalEvent) (cal : List CalEvent) : List CalEvent :=
  toDel.foldl (fun acc e =>
    match e.id with
    | some i => deleteById i acc
    | none => acc) cal

/-- Result of a removeAll pass: the external calendar afterwards, the count
of successful deletions, and the calls issued. -/
structure RemoveResult where
  cal : List CalEvent
  deleted : Nat
  calls : List ExtCall
  deriving Repr, DecidableEq

/-- removeAll for one date: list (with pagination) the events of the window,
filter them by local calendar date, and delete each match that has an
identifier, counting the successful deletions. -/
def removeAllDate (calendarId : String) (cal : List CalEvent) (dateStr : String) :
    RemoveResult :=
  let toDel := eventsToDelete cal dateStr
  { cal := deleteFold toDel cal
    deleted := (toDel.filterMap CalEvent.id).length
    calls := ExtCall.listEvents calendarId dateStr ::
      (toDel.filterMap CalEvent.id).map (ExtCall.delete calendarId) }

/-- removeAll across the requested dates, sequentially, threading the
external calendar state and accumulating the deletion count. -/
def removeAllRun (calendarId : String) (cal : List CalEvent) :
    List String → RemoveResult
  | [] => ⟨cal, 0, []⟩
  | d :: rest =>
      let r := removeAllDate calendarId cal d
      let rr := removeAllRun calendarId r.cal rest
      ⟨rr.cal, r.deleted + rr.deleted, r.calls ++ rr.calls⟩

/-! ### The POST handler -/

/-- The dates a POST request will process: the dates array when present and
nonempty, otherwise the single selected date when present and truthy. -/
def datesToProcess (body : PostBody) : List String :=
  let selDates :=
    match body.selectedDate with
    | some sd => if sd = "" then [] else [sd]
    | none => []
  match body.dates with
  | some ds => if ds.length > 0 then ds else selDates
  | none => selDates

/-- The success message of addAll. -/
def addAllMessage (total : Nat) (body : PostBody) (dates : List String) : String :=
  if body.isRangeMode then
    natToString total ++ " events added to calendar across " ++
      natToString dates.length ++ " days successfully!"
  else
    natToString total ++ " events added to calendar for " ++
      dates.headD "" ++ " successfully!"

/-- The success message of removeAll. -/
def removeAllMessage (total : Nat) (body : PostBody) (dates : List String) : String :=
  if body.isRangeMode then
    natToString total ++ " events removed from calendar across " ++
      natToString dates.length ++ " days successfully!"
  else
    natToString total ++ " events removed from calendar for " ++
      dates.headD "" ++ " successfully!"

/-- Embedding of the POST handler of the route: resolve the calendar
identifier for the name parameter, authenticate (always for the Home
account), parse the body, validate the action and the dates, and dispatch
to addAll or removeAll.  Returns the response, the external calls issued,
and the external calendar afterwards.  The ok oracle decides the success of
each insert call in issue order. -/
def POSThandler (env : Env) (req : PostRequest) (cal : List CalEvent)
    (ok : Nat → Bool) : Response × List ExtCall × List CalEvent :=
  let name := req.name.getD "Vivek"
  match (env.calendarIds.find? (fun p => p.fst = name)).map Prod.snd with
  | none =>
      (⟨400, "Invalid or missing calendar ID for " ++ name ++
        ". Check environment variables."⟩, [], cal)
  | some calendarId =>
      match authenticate env.keys "Home" with
      | .error resp => (resp, [], cal)
      | .ok _cred =>
          match req.body with
          | none => (⟨400, "Invalid JSON in request body"⟩, [], cal)
          | some body =>
              if body.action = "" then
                (⟨400, "Missing action in request body"⟩, [], cal)
              else
                let dates := datesToProcess body
                if dates.length = 0 then
                  (⟨400, "No valid dates provided"⟩, [], cal)
                else if body.action = "addAll" then
                  match body.events with
                  | none => (⟨400, "Events must be an array"⟩, [], cal)
                  | some evs =>
                      match runDates ok calendarId evs dates 0 with
                      | .error cs =>
                          (⟨500, "Failed to process request"⟩, cs, cal)
                      | .ok (cs, total, _) =>
                          (⟨200, addAllMessage total body dates⟩, cs, cal)
                else if body.action = "removeAll" then
                  let r := removeAllRun calendarId cal dates
                  (⟨200, removeAllMessage r.deleted body dates⟩, r.calls, r.cal)
                else
                  (⟨400, "Invalid action"⟩, [], cal)

/-! ### Slot generation and bulk paste (UI components)

Two variants appear in the sources: the page component bundled with the
route (24 slots starting at hour 0, placeholder fallback titles) and
src/app/page.tsx (18 slots starting at hour 5, slots with empty or
placeholder titles dropped). -/

/-- The JavaScript or-fallback on strings: the left operand when truthy
(nonempty), the right operand otherwise. -/
def orElseStr (a b : String) : String := if a = "" then b else a

/-- The fallback title used for slot position k: the static title list
indexed by position, with the placeholder once the list is exhausted. -/
def fallbackTitle (titles : List String) (k : Nat) : String :=
  orElseStr (titles.getD k "") "Empty Slot"

/-- The YouTube search link field for a title and a suffix phrase; the query
is the encodeURIComponent rendering of the title and the phrase, modelled
as-is because no claim inspects the encoded characters. -/
def ytSearch (title suffixPhrase : String) : String :=
  "https://www.youtube.com/results?search_query=" ++ title ++ suffixPhrase

namespace RouteUI

/-- The static title list of the route-bundled page component, one title
per hour of the day. -/
def initialEventTitles : List String :=
  [ "HTML", "CSS", "JavaScript", "TypeScript", "React", "Next.js", "Vue.js",
    "Angular", "Svelte", "Tailwind CSS", "Bootstrap", "Node.js", "Express.js",
    "Django", "Flask", "Spring Boot", "GraphQL", "REST API", "MongoDB",
    "PostgreSQL", "MySQL", "Firebase", "AWS", "Docker" ]

/-- One generated slot of the route-bundled updateEvents: hour equal to the
index, start at hh:00:00, stop at hh:50:00, title from the static list with
the placeholder fallback. -/
def slotAt (date : String) (index : Nat) : Event :=
  let startHour := pad2 index
  let title := fallbackTitle initialEventTitles index
  { start := date ++ "T" ++ (startHour ++ ":00:00"),
    «end» := date ++ "T" ++ (startHour ++ ":50:00"),
    title := title,
    youtubeHindi := ytSearch title " in Hindi",
    youtubeEnglish := ytSearch title " in English",
    youtubePlaylistHindi := ytSearch title " playlist in Hindi",
    youtubePlaylistEnglish := ytSearch title " playlist in English",
    timeZone := "Asia/Kolkata" }

/-- Embedding of the route-bundled updateEvents: an array of twenty-four
slots built from the index. -/
def updateEvents (date : String) : List Event :=
  (List.range 24).map (slotAt date)

end RouteUI

namespace Page

/-- Only eighteen slots. -/
def CARD_COUNT : Nat := 18

/-- Five in the morning to ten at night. -/
def START_HOUR : Nat := 5

/-- The static title list of src/app/page.tsx, eighteen entries. -/
def initialEventTitles : List String :=
  [ "HTML", "CSS", "JavaScript", "TypeScript", "React", "Next.js", "Vue.js",
    "Angular", "Svelte", "Tailwind CSS", "Bootstrap", "Node.js", "Express.js",
    "Django", "Flask", "Spring Boot", "GraphQL", "REST API" ]

/-- The drop condition of the page variant: a slot is dropped when its
title is missing, trims to nothing, or is the placeholder. -/
def dropTitle (title : String) : Bool :=
  title = "" || jsTrim title = "" || title = "Empty Slot"

/-- One generated slot of the page variant at a given index, before the
drop filter; the hour is the index shifted by the start hour. -/
def slotAt (date : String) (idx : Nat) : Event :=
  let hour := idx + START_HOUR
  let startHour := pad2 hour
  let title := initialEventTitles.getD idx ""
  { start := date ++ "T" ++ (startHour ++ ":00:00"),
    «end» := date ++ "T" ++ (startHour ++ ":50:00"),
    title := title,
    youtubeHindi := ytSearch title " in Hindi",
    youtubeEnglish := ytSearch title " in English",
    youtubePlaylistHindi := ytSearch title " playlist in Hindi",
    youtubePlaylistEnglish := ytSearch title " playlist in English",
    timeZone := "Asia/Kolkata" }

/-- Embedding of updateEvents of src/app/page.tsx: map every index to its
slot unless the drop condition holds, then keep the remaining slots. -/
def updateEvents (date : String) : List Event :=
  (List.range CARD_COUNT).filterMap (fun idx =>
    if dropTitle (initialEventTitles.getD idx "") then none
    else some (slotAt date idx))

end Page

/-! ### Bulk title parser -/

/-- The per-item transformation of handleBulkPaste: trim the item, remove
every parenthesis character, split at whitespace runs, keep the first two
pieces, and join them with one space. -/
def parseTitle (item : String) : String :=
  let trimmedItem := jsTrim item
  let words := splitWs (ofChars (trimmedItem.data.filter (fun c => c ≠ '(' && c ≠ ')')))
  String.intercalate " " (words.take 2)

/-- The collection loop of handleBulkPaste: walk the comma-separated items,
push the parsed title of each item whose trim is nonempty, and stop as soon
as the target count is reached (the stop check runs after every item, on
the length after the optional push). -/
def pasteLoop (N : Nat) : List String → List String → List String
  | [], acc => acc
  | item :: rest, acc =>
      if jsTrim item ≠ "" then
        if N ≤ (acc ++ [parseTitle item]).length then acc ++ [parseTitle item]
        else pasteLoop N rest (acc ++ [parseTitle item])
      else
        if N ≤ acc.length then acc else pasteLoop N rest acc

/-- Fuel-driven worker for the padding loop; the fuel starts at the
missing count, which always suffices. -/
def padTitlesAux (titles : List String) (N : Nat) : Nat → List String → List String
  | 0, ts => ts
  | fuel + 1, ts =>
      if ts.length < N then
        padTitlesAux titles N fuel (ts ++ [fallbackTitle titles ts.length])
      else ts

/-- The padding loop of handleBulkPaste: while fewer than the target count
of titles are collected, push the fallback title of the current length. -/
def padTitles (titles : List String) (N : Nat) (ts : List String) : List String :=
  padTitlesAux titles N (N - ts.length) ts

/-- The full bulk title parser for a target count and fallback list: split
the raw input at commas, collect up to the target count of parsed titles,
and pad any shortfall from the fallback list. -/
def bulkTitles (titles : List String) (N : Nat) (input : String) : List String :=
  padTitles titles N (pasteLoop N (jsSplitChar ',' input) [])

/-- Embedding of handleBulkPaste of the route-bundled page component: an
input that trims to nothing is a user error (none); otherwise twenty-four
titles. -/
def RouteUI.handleBulkPaste (input : String) : Option (List String) :=
  if jsTrim input = "" then none
  else some (bulkTitles RouteUI.initialEventTitles 24 input)

/-- Embedding of handleBulkPaste of src/app/page.tsx: eighteen titles. -/
def Page.handleBulkPaste (input : String) : Option (List String) :=
  if jsTrim input = "" then none
  else some (bulkTitles Page.initialEventTitles Page.CARD_COUNT input)

/-! ### Date-range expansion -/

/-- Fuel-driven worker for getDatesBetween; the fuel starts at the length
of the range, which always suffices. -/
def getDatesBetweenAux : Nat → Int → Int → List String
  | 0, _, _ => []
  | fuel + 1, s, e =>
      if s ≤ e then formatCivilDate s :: getDatesBetweenAux fuel (s + 1) e
      else []

/-- Embedding of getDatesBetween.  The two Date arguments are represented
by the local calendar days they fall on (the source normalizes the first to
00:00:00.000 and the second to 23:59:59.999, so the loop guard current at
or before end holds exactly when the first day number is at most the
second), and each iteration renders the current day and advances one
calendar day. -/
def getDatesBetween (s e : Int) : List String :=
  getDatesBetweenAux (e + 1 - s).toNat s e

/-! ### Sheet clearing (sheet-sync variants) -/

/-- Blank the first cols cells of a row, modelling a values clear over the
columns of the range. -/
def blankRow (cols : Nat) (row : List String) : List String :=
  row.mapIdx (fun j c => if j < cols then "" else c)

/-- Model of the values clear call over the range from A2 down to the last
column of the variant (column F, six columns, in the richer variant;
column D, four columns, in the earlier one): row one, the header, is
outside the range; every row below it has the cells of those columns
cleared. -/
def clearValuesBelowHeader (cols : Nat) (rows : List (List String)) :
    List (List String) :=
  match rows with
  | [] => []
  | header :: rest => header :: rest.map (blankRow cols)

/-! ### Derived specification functions

Declarative forms used on the specification side of the theorems below;
they are compared against the loop embeddings above. -/

/-- Render a minute of the day as an HH:MM:SS string; an injective encoding
of minutes used to state that a slot stop time is its start time plus the
fixed duration. -/
def timeStr (m : Nat) : String :=
  pad2 (m / 60) ++ ":" ++ pad2 (m % 60) ++ ":00"

/-- The comma-separated items of a bulk-paste input that survive the trim
check, each mapped through the per-item title transformation. -/
def validParsed (input : String) : List String :=
  ((jsSplitChar ',' input).filter (fun it => jsTrim it ≠ "")).map parseTitle

/-- Number of successful calls among n consecutive call indices starting at
k, for a given success oracle. -/
def countOk (ok : Nat → Bool) (k n : Nat) : Nat :=
  (List.range n).countP (fun j => ok (k + j))

/-- The insert calls a slot list gives rise to: the windows whose two
constructed timestamps parse, in order. -/
def slotPlan (calendarId : String) (evt : Event) (slots : List (String × String)) :
    List ExtCall :=
  (slots.filter (fun p => (parseLocalDT p.1).isSome && (parseLocalDT p.2).isSome)).map
    (fun p => ExtCall.insert calendarId evt.title (descriptionOf evt) p.1 p.2)

/-- The insert calls one event gives rise to on one date: none when the
hour extraction fails, otherwise the valid windows of its two slots. -/
def itemCalls (calendarId dateStr : String) (evt : Event) : List ExtCall :=
  match hourOf evt.start with
  | none => []
  | some hour => slotPlan calendarId evt (slotPairs dateStr hour)

/-- The insert calls a whole event list gives rise to on one date. -/
def eventsPlan (calendarId dateStr : String) (events : List Event) : List ExtCall :=
  events.flatMap (itemCalls calendarId dateStr)

/-- All insert calls an addAll batch gives rise to, dates outermost. -/
def addAllPlan (calendarId : String) (dates : List String) (events : List Event) :
    List ExtCall :=
  dates.flatMap (fun d => eventsPlan calendarId d events)

/-- Whether a calendar event is a deletion target for a date: the date
parses, the timed start lies in the listing window, and the local-date
filter accepts it.  Pointwise in the event, independent of the rest of the
calendar. -/
def isTarget (dateStr : String) (x : CalEvent) : Bool :=
  match parseDate dateStr with
  | none => false
  | some day =>
      (match x.startDT with
       | none => false
       | some t =>
           decide (day * 86400 - istOffsetSecs ≤ t) &&
           decide (t ≤ day * 86400 - istOffsetSecs + 86399)) &&
      matchesLocalDate dateStr x

/-! ### Concrete fixtures for counterexamples and witnesses -/

/-- A well-formed slot event titled Math starting at hour 09. -/
def mathEvt : Event :=
  { start := "2025-01-10T09:00:00", «end» := "2025-01-10T09:50:00",
    title := "Math", youtubeHindi := "h", youtubeEnglish := "e",
    youtubePlaylistHindi := "ph", youtubePlaylistEnglish := "pe",
    timeZone := "Asia/Kolkata" }

/-- An event whose start string has no T separator; the hour extraction of
the addAll loop throws on it. -/
def badStartEvt : Event :=
  { start := "hello", «end» := "2025-01-10T09:50:00",
    title := "Broken", youtubeHindi := "", youtubeEnglish := "",
    youtubePlaylistHindi := "", youtubePlaylistEnglish := "",
    timeZone := "Asia/Kolkata" }

/-- An event whose start has a T but a nonsense hour, so its constructed
per-slot timestamps do not parse. -/
def badHourEvt : Event :=
  { start := "2025-01-10T99:00:00", «end» := "2025-01-10T99:50:00",
    title := "OffGrid", youtubeHindi := "", youtubeEnglish := "",
    youtubePlaylistHindi := "", youtubePlaylistEnglish := "",
    timeZone := "Asia/Kolkata" }

/-- A configuration with one resolvable name and present credentials. -/
def envHome : Env :=
  { calendarIds := [("Vivek", "cal-vivek")], keys := some ⟨[], "sa-key"⟩ }

/-- The success oracle under which every external insert call succeeds. -/
def okAll : Nat → Bool := fun _ => true

/-- The addAll request of the scenario of the claim: one event, one date,
default duration. -/
def reqAddOne : PostRequest :=
  { name := some "Vivek", calendarAccount := "Home",
    body := some { action := "addAll", events := some [mathEvt],
                   selectedDate := none, dates := some ["2025-01-10"],
                   isRangeMode := false } }

/-- An addAll request whose first event crashes the hour extraction and
whose second event is well formed. -/
def reqAddBadFirst : PostRequest :=
  { name := some "Vivek", calendarAccount := "Home",
    body := some { action := "addAll", events := some [badStartEvt, mathEvt],
                   selectedDate := none, dates := some ["2025-01-10"],
                   isRangeMode := false } }

/-- A calendar event on 2025-01-10 (Asia/Kolkata) with an identifier. -/
def calEvtA : CalEvent :=
  { id := some "idA", startDT := some (20098 * 86400 + 3600), summary := "A" }

/-- A calendar event on 2025-01-10 (Asia/Kolkata) without an identifier. -/
def calEvtNoId : CalEvent :=
  { id := none, startDT := some (20098 * 86400 + 7200), summary := "B" }

/-! ## Helper lemmas -/

/-- A filterMap whose function is total on the list is a map. -/
theorem filterMap_eq_map_of_some {α β : Type} {f : α → Option β} {g : α → β} :
    ∀ l : List α, (∀ x ∈ l, f x = some (g x)) → l.filterMap f = l.map g := by
  intro l h
  induction l with
  | nil => rfl
  | cons a t ih =>
      rw [List.filterMap_cons, List.map_cons, h a (by simp),
        ih (fun x hx => h x (by simp [hx]))]

/-- Indexing a map over an initial segment of the naturals. -/
theorem getD_map_range {α : Type} {n : Nat} (f : Nat → α) (i : Fin n) (d : α) :
    ((List.range n).map f).getD i d = f i := by
  have h1 : ((List.range n).map f)[(i : Nat)]? = some (f i) := by
    rw [List.getElem?_map, List.getElem?_range i.isLt]
    rfl
  simp [List.getD, h1]

/-! ## C9: sheet clearing preserves the header row -/

/-- Claim C9: in the sheet-sync variants, the removeAll clear call touches
only rows strictly below the header: row one is returned unchanged, cell
for cell, while every lower row has the cells of the cleared columns
blanked.  The column count covers both variants (six for the range ending
at column F, four for the range ending at column D). -/
theorem sheetClear_preserves_header (cols : Nat) (rows : List (List String)) :
    (clearValuesBelowHeader cols rows).head? = rows.head? ∧
    ∀ i : Nat, (clearValuesBelowHeader cols rows)[i + 1]? =
      (rows[i + 1]?).map (blankRow cols) := by
  constructor
  · cases rows <;> rfl
  · intro i
    cases rows with
    | nil => rfl
    | cons header rest =>
        rw [show clearValuesBelowHeader cols (header :: rest) =
            header :: rest.map (blankRow cols) from rfl,
          List.getElem?_cons_succ, List.getElem?_cons_succ, List.getElem?_map]

/-! ## C10: request outcomes ignore the calendarAccount value -/

/-- Claim C10: authenticate forces every account argument to Home before
resolving credentials, and the POST handler never reads the calendarAccount
request parameter, so any two requests that differ only in that parameter
resolve identical credentials and produce identical responses, calls, and
calendar states. -/
theorem calendarAccount_irrelevant :
    (∀ (keys : Option ServiceKeys) (a b : String),
      authenticate keys a = authenticate keys b) ∧
    (∀ (env : Env) (req : PostRequest) (cal : List CalEvent) (ok : Nat → Bool)
        (ca₁ ca₂ : String),
      POSThandler env { req with calendarAccount := ca₁ } cal ok =
      POSThandler env { req with calendarAccount := ca₂ } cal ok) := by
  constructor
  · intro keys a b
    have h : ∀ x : String, (if x = "Home" then x else "Home") = "Home" := by
      intro x
      by_cases hx : x = "Home" <;> simp [hx]
    unfold authenticate
    rw [h a, h b]
  · intro env req cal ok ca₁ ca₂
    rfl

/-! ## C8: a malformed JSON body yields a 400 and no external calls -/

/-- Claim C8: when the service-account credentials are configured, a POST
request whose body is not valid JSON is answered with status 400 and the
handler issues no external calendar or spreadsheet call and leaves the
external calendar untouched.  The credential hypothesis only rules out the
separately specified configuration-error path, which answers 500 before the
body is read. -/
theorem malformedJson_yields_400 (env : Env) (req : PostRequest)
    (cal : List CalEvent) (ok : Nat → Bool)
    (hk : env.keys.isSome) (hb : req.body = none) :
    (POSThandler env req cal ok).1.status = 400 ∧
    (POSThandler env req cal ok).2.1 = [] ∧
    (POSThandler env req cal ok).2.2 = cal := by
  obtain ⟨k, hkeq⟩ := Option.isSome_iff_exists.mp hk
  obtain ⟨ids, keys⟩ := env
  obtain ⟨nm, ca, bd⟩ := req
  cases hkeq
  cases hb
  cases hf : (ids.find? (fun p => p.fst = nm.getD "Vivek")).map Prod.snd with
  | none => simp [POSThandler, hf]
  | some cid => simp [POSThandler, hf, authenticate]

/-- Witness for C8 at a concrete configured environment and a request whose
body failed to parse. -/
theorem malformedJson_yields_400_witness :
    (POSThandler envHome ⟨some "Vivek", "Home", none⟩ [] okAll).1.status = 400 ∧
    (POSThandler envHome ⟨some "Vivek", "Home", none⟩ [] okAll).2.1 = [] ∧
    (POSThandler envHome ⟨some "Vivek", "Home", none⟩ [] okAll).2.2 = [] :=
  malformedJson_yields_400 envHome ⟨some "Vivek", "Home", none⟩ [] okAll
    (by decide) rfl

/-! ## C3: the removeAll deletion filter -/

/-- Claim C3: among the events fetched for a target date, removeAll selects
an event for deletion exactly when the event has a timed start whose
conversion to the configured local time zone Asia/Kolkata renders as a
calendar-date string equal to the target date. -/
theorem removeAll_filter_iff (cal : List CalEvent) (dateStr : String)
    (e : CalEvent) (hf : e ∈ fetchedEvents cal dateStr) :
    e ∈ eventsToDelete cal dateStr ↔
      ∃ t, e.startDT = some t ∧ toLocalDateEnCA t = dateStr := by
  unfold eventsToDelete
  rw [List.mem_filter]
  constructor
  · rintro ⟨-, hm⟩
    unfold matchesLocalDate at hm
    cases hst : e.startDT with
    | none => rw [hst] at hm; cases hm
    | some t =>
        rw [hst] at hm
        exact ⟨t, rfl, by simpa using hm⟩
  · rintro ⟨t, ht, hd⟩
    refine ⟨hf, ?_⟩
    unfold matchesLocalDate
    rw [ht]
    simpa using hd

/-- Witness for C3 at a concrete calendar and date, with the selection
evaluated on both sides of the equivalence. -/
theorem removeAll_filter_iff_witness :
    calEvtA ∈ eventsToDelete [calEvtA] "2025-01-10" ↔
      ∃ t, calEvtA.startDT = some t ∧ toLocalDateEnCA t = "2025-01-10" :=
  removeAll_filter_iff [calEvtA] "2025-01-10" calEvtA (by decide)

/-! ## C4: the slot generator -/

/-- The hh:00:00 literal built by the sources equals the minute rendering
of the top of hour i, for the route variant hours. -/
theorem pad_start_eq_timeStr24 :
    ∀ i : Fin 24, pad2 (i : Nat) ++ ":00:00" = timeStr (60 * (i : Nat)) := by decide

/-- The hh:50:00 literal built by the sources equals the minute rendering
of hour i plus fifty minutes, for the route variant hours. -/
theorem pad_stop_eq_timeStr24 :
    ∀ i : Fin 24, pad2 (i : Nat) ++ ":50:00" = timeStr (60 * (i : Nat) + 50) := by decide

/-- Every title of the route variant is nonempty. -/
theorem routeUI_title_ne_empty :
    ∀ i : Fin 24, fallbackTitle RouteUI.initialEventTitles (i : Nat) ≠ "" := by decide

/-- The hh:00:00 literal for the page variant hours (shifted by five). -/
theorem pad_start_eq_timeStr18 :
    ∀ i : Fin 18, pad2 ((i : Nat) + 5) ++ ":00:00" = timeStr (60 * ((i : Nat) + 5)) := by
  decide

/-- The hh:50:00 literal for the page variant hours. -/
theorem pad_stop_eq_timeStr18 :
    ∀ i : Fin 18, pad2 ((i : Nat) + 5) ++ ":50:00" = timeStr (60 * ((i : Nat) + 5) + 50) := by
  decide

/-- No title of the page list is dropped by the drop condition. -/
theorem page_dropTitle_false :
    ∀ i : Fin 18, Page.dropTitle (Page.initialEventTitles.getD (i : Nat) "") = false := by
  decide

/-- Every title of the page list is nonempty. -/
theorem page_title_ne_empty :
    ∀ i : Fin 18, Page.initialEventTitles.getD (i : Nat) "" ≠ "" := by decide

/-- The page updateEvents keeps a slot at every index: with the static
eighteen-title list nothing is dropped, so the filterMap is a map. -/
theorem page_updateEvents_eq_map (d : String) :
    Page.updateEvents d = (List.range 18).map (Page.slotAt d) := by
  unfold Page.updateEvents
  rw [show Page.CARD_COUNT = 18 from rfl]
  apply filterMap_eq_map_of_some
  intro idx hidx
  have hlt : idx < 18 := List.mem_range.mp hidx
  rw [page_dropTitle_false ⟨idx, hlt⟩]
  simp

/-- Claim C4: for every date string, the slot generator produces exactly
the configured number of slots (twenty-four in the route variant, eighteen
in the page variant), in hour order (the slot at position i starts at
minute sixty times its hour, the hour being i, or i plus five in the page
variant), each slot stops exactly fifty minutes after it starts, and every
slot title is nonempty. -/
theorem updateEvents_slots (d : String) :
    ((RouteUI.updateEvents d).length = 24 ∧
      ∀ i : Fin 24,
        ((RouteUI.updateEvents d).getD i default).start =
          (d ++ "T") ++ timeStr (60 * (i : Nat)) ∧
        ((RouteUI.updateEvents d).getD i default).«end» =
          (d ++ "T") ++ timeStr (60 * (i : Nat) + 50) ∧
        ((RouteUI.updateEvents d).getD i default).title ≠ "") ∧
    ((Page.updateEvents d).length = 18 ∧
      ∀ i : Fin 18,
        ((Page.updateEvents d).getD i default).start =
          (d ++ "T") ++ timeStr (60 * ((i : Nat) + 5)) ∧
        ((Page.updateEvents d).getD i default).«end» =
          (d ++ "T") ++ timeStr (60 * ((i : Nat) + 5) + 50) ∧
        ((Page.updateEvents d).getD i default).title ≠ "") := by
  refine ⟨⟨by simp [RouteUI.updateEvents], ?_⟩, ⟨?_, ?_⟩⟩
  · intro i
    have hg : (RouteUI.updateEvents d).getD i default = RouteUI.slotAt d i :=
      getD_map_range (RouteUI.slotAt d) i default
    rw [hg]
    refine ⟨?_, ?_, ?_⟩
    · show (d ++ "T") ++ (pad2 (i : Nat) ++ ":00:00") = _
      rw [pad_start_eq_timeStr24 i]
    · show (d ++ "T") ++ (pad2 (i : Nat) ++ ":50:00") = _
      rw [pad_stop_eq_timeStr24 i]
    · exact routeUI_title_ne_empty i
  · rw [page_updateEvents_eq_map]
    simp
  · intro i
    have hg : (Page.updateEvents d).getD i default = Page.slotAt d i := by
      rw [page_updateEvents_eq_map]
      exact getD_map_range (Page.slotAt d) i default
    rw [hg]
    refine ⟨?_, ?_, ?_⟩
    · show (d ++ "T") ++ (pad2 ((i : Nat) + 5) ++ ":00:00") = _
      rw [pad_start_eq_timeStr18 i]
    · show (d ++ "T") ++ (pad2 ((i : Nat) + 5) ++ ":50:00") = _
      rw [pad_stop_eq_timeStr18 i]
    · exact page_title_ne_empty i

/-! ## C5: the bulk title parser -/

/-- The collection loop produces the parsed titles of the valid items, in
input order, truncated to the remaining capacity. -/
theorem pasteLoop_eq (N : Nat) :
    ∀ (items : List String) (acc : List String), acc.length < N →
      pasteLoop N items acc =
        acc ++ ((items.filter (fun it => jsTrim it ≠ "")).map parseTitle).take
          (N - acc.length) := by
  intro items
  induction items with
  | nil => intro acc h; simp [pasteLoop]
  | cons item rest ih =>
      intro acc h
      by_cases hit : jsTrim item = ""
      · have h1 : pasteLoop N (item :: rest) acc = pasteLoop N rest acc := by
          simp only [pasteLoop, if_neg (not_not_intro hit)]
          rw [if_neg (show ¬ N ≤ acc.length by omega)]
        rw [h1, ih acc h]
        simp [List.filter_cons, hit]
      · have hfil : (item :: rest).filter (fun it => jsTrim it ≠ "") =
            item :: rest.filter (fun it => jsTrim it ≠ "") := by
          simp [List.filter_cons, hit]
        by_cases hN : N ≤ acc.length + 1
        · have h1 : pasteLoop N (item :: rest) acc = acc ++ [parseTitle item] := by
            simp only [pasteLoop, if_pos hit]
            rw [if_pos (show N ≤ (acc ++ [parseTitle item]).length by simp; omega)]
          rw [h1, hfil, List.map_cons, show N - acc.length = 1 by omega]
          simp
        · have h1 : pasteLoop N (item :: rest) acc =
              pasteLoop N rest (acc ++ [parseTitle item]) := by
            simp only [pasteLoop, if_pos hit]
            rw [if_neg (show ¬ N ≤ (acc ++ [parseTitle item]).length by simp; omega)]
          rw [h1, ih (acc ++ [parseTitle item]) (by simp; omega), hfil, List.map_cons,
            show N - acc.length = (N - (acc ++ [parseTitle item]).length) + 1 by
              simp; omega,
            List.take_succ_cons]
          simp

/-- The padding loop appends the fallback titles of the missing positions. -/
theorem padTitlesAux_eq (titles : List String) (N : Nat) :
    ∀ (fuel : Nat) (ts : List String), ts.length + fuel = N →
      padTitlesAux titles N fuel ts =
        ts ++ (List.range fuel).map (fun j => fallbackTitle titles (ts.length + j)) := by
  intro fuel
  induction fuel with
  | zero => intro ts h; simp [padTitlesAux]
  | succ m ih =>
      intro ts h
      unfold padTitlesAux
      rw [if_pos (by omega)]
      rw [ih (ts ++ [fallbackTitle titles ts.length]) (by simp; omega)]
      have hmap : (List.range m).map
          (fun j => fallbackTitle titles
            ((ts ++ [fallbackTitle titles ts.length]).length + j)) =
          (List.range m).map
            ((fun j => fallbackTitle titles (ts.length + j)) ∘ Nat.succ) := by
        apply List.map_congr_left
        intro j _
        simp only [Function.comp, List.length_append, List.length_cons,
          List.length_nil]
        congr 1
        omega
      rw [hmap, List.append_assoc, List.singleton_append]
      congr 1
      rw [show fallbackTitle titles ts.length =
          (fun j => fallbackTitle titles (ts.length + j)) 0 by simp]
      rw [← List.map_map, List.range_succ_eq_map, List.map_cons]

/-- The bulk title parser, characterized: for a positive target count, the
output is the parsed valid items in input order, truncated to the target
count, followed by the fallback titles of the remaining positions; in
particular the output length is exactly the target count. -/
theorem bulkTitles_eq (titles : List String) (N : Nat) (hN : 0 < N) (input : String) :
    bulkTitles titles N input =
      (validParsed input).take N ++
        (List.range (N - ((validParsed input).take N).length)).map
          (fun j => fallbackTitle titles (((validParsed input).take N).length + j)) ∧
    (bulkTitles titles N input).length = N := by
  have hloop : pasteLoop N (jsSplitChar ',' input) [] =
      (validParsed input).take N := by
    rw [pasteLoop_eq N (jsSplitChar ',' input) [] (by simpa using hN)]
    simp [validParsed]
  have hlen : ((validParsed input).take N).length ≤ N := by
    simp [List.length_take]
  have hmain : bulkTitles titles N input =
      (validParsed input).take N ++
        (List.range (N - ((validParsed input).take N).length)).map
          (fun j => fallbackTitle titles (((validParsed input).take N).length + j)) := by
    unfold bulkTitles padTitles
    rw [hloop]
    exact padTitlesAux_eq titles N _ _ (by omega)
  refine ⟨hmain, ?_⟩
  rw [hmain]
  simp

/-- Claim C5: for every input string, the bulk title parser of each variant
returns exactly the configured count of titles (twenty-four, respectively
eighteen): the parsed valid comma-separated items in input order up to the
count, padded at the end from the fallback title list. -/
theorem handleBulkPaste_titles (input : String) :
    (bulkTitles RouteUI.initialEventTitles 24 input =
        (validParsed input).take 24 ++
          (List.range (24 - ((validParsed input).take 24).length)).map
            (fun j => fallbackTitle RouteUI.initialEventTitles
              (((validParsed input).take 24).length + j)) ∧
      (bulkTitles RouteUI.initialEventTitles 24 input).length = 24) ∧
    (bulkTitles Page.initialEventTitles 18 input =
        (validParsed input).take 18 ++
          (List.range (18 - ((validParsed input).take 18).length)).map
            (fun j => fallbackTitle Page.initialEventTitles
              (((validParsed input).take 18).length + j)) ∧
      (bulkTitles Page.initialEventTitles 18 input).length = 18) :=
  ⟨bulkTitles_eq RouteUI.initialEventTitles 24 (by omega) input,
   bulkTitles_eq Page.initialEventTitles 18 (by omega) input⟩

/-! ## C6: date-range expansion -/

/-- The worker loop of getDatesBetween renders the consecutive days of the
range in ascending order when given exactly enough fuel. -/
theorem getDatesBetweenAux_eq :
    ∀ (n : Nat) (s e : Int), (e + 1 - s).toNat = n →
      getDatesBetweenAux n s e =
        (List.range n).map (fun k : Nat => formatCivilDate (s + (k : Int))) := by
  intro n
  induction n with
  | zero => intro s e _; rfl
  | succ m ih =>
      intro s e hn
      have hse : s ≤ e := by omega
      show (if s ≤ e then formatCivilDate s :: getDatesBetweenAux m (s + 1) e
        else []) = _
      rw [if_pos hse, ih (s + 1) e (by omega)]
      rw [List.range_succ_eq_map, List.map_cons, List.map_map]
      have h0 : formatCivilDate s = formatCivilDate (s + (0 : Nat)) := by norm_num
      rw [h0]
      congr 1
      apply List.map_congr_left
      intro j _
      simp only [Function.comp]
      congr 1
      omega

/-- Counterexample to claim C6 as stated: when the chronologically later
endpoint is passed first, getDatesBetween returns the empty list rather
than the swapped inclusive range; the source contains no endpoint swap.
Day 20099 is 2025-01-11 and day 20098 is 2025-01-10. -/
theorem getDatesBetween_reversed_empty :
    getDatesBetween (daysFromCivil 2025 1 11) (daysFromCivil 2025 1 10) = [] ∧
    ([] : List String) ≠ ["2025-01-10", "2025-01-11"] := by
  constructor
  · decide
  · decide

/-- Claim C6 (amended): when the chronologically earlier endpoint is given
first, getDatesBetween returns every calendar date from the first endpoint
to the second inclusive, in ascending order; with reversed endpoints the
result is empty (there is no swap). -/
theorem getDatesBetween_spec (s e : Int) (h : s ≤ e) :
    getDatesBetween s e =
      (List.range (e + 1 - s).toNat).map (fun k : Nat => formatCivilDate (s + (k : Int))) ∧
    (getDatesBetween s e).length = (e + 1 - s).toNat ∧
    (getDatesBetween s e).head? = some (formatCivilDate s) ∧
    (getDatesBetween s e).getLast? = some (formatCivilDate e) := by
  have hmain : getDatesBetween s e =
      (List.range (e + 1 - s).toNat).map (fun k : Nat => formatCivilDate (s + (k : Int))) :=
    getDatesBetweenAux_eq _ s e rfl
  have hpos : 0 < (e + 1 - s).toNat := by omega
  refine ⟨hmain, by rw [hmain]; simp, ?_, ?_⟩
  · rw [hmain]
    cases hr : (e + 1 - s).toNat with
    | zero => omega
    | succ m =>
        rw [List.range_succ_eq_map]
        simp
  · rw [hmain]
    cases hr : (e + 1 - s).toNat with
    | zero => omega
    | succ m =>
        rw [List.range_succ, List.map_append, List.map_singleton,
          List.getLast?_concat]
        congr 2
        omega

/-- Witness for C6 at the concrete range from 2025-01-10 (day 20098) to
2025-01-11 (day 20099). -/
theorem getDatesBetween_spec_witness :
    getDatesBetween 20098 20099 =
      (List.range ((20099 : Int) + 1 - 20098).toNat).map
        (fun k : Nat => formatCivilDate (20098 + (k : Int))) ∧
    (getDatesBetween 20098 20099).length = ((20099 : Int) + 1 - 20098).toNat ∧
    (getDatesBetween 20098 20099).head? = some (formatCivilDate 20098) ∧
    (getDatesBetween 20098 20099).getLast? = some (formatCivilDate 20099) :=
  getDatesBetween_spec 20098 20099 (by decide)

/-! ## C2: removeAll idempotence -/

/-- Membership after the deletion loop: an event survives exactly when it
was present and no processed deletion named its identifier. -/
theorem mem_deleteFold :
    ∀ (l s : List CalEvent) (x : CalEvent),
      x ∈ deleteFold l s ↔
        x ∈ s ∧ ∀ e ∈ l, ∀ i, e.id = some i → x.id ≠ some i := by
  intro l
  induction l with
  | nil => intro s x; simp [deleteFold]
  | cons e t ih =>
      intro s x
      have hstep : deleteFold (e :: t) s =
          deleteFold t (match e.id with
            | some i => deleteById i s
            | none => s) := rfl
      rw [hstep, ih]
      cases he : e.id with
      | none =>
          simp only [List.forall_mem_cons, he]
          constructor
          · rintro ⟨hs, ht⟩
            refine ⟨hs, ?_, ht⟩
            intro i h
            cases h
          · rintro ⟨hs, -, ht⟩
            exact ⟨hs, ht⟩
      | some i =>
          simp only [List.forall_mem_cons, he, deleteById, List.mem_filter,
            ne_eq, decide_not, Bool.not_eq_true', decide_eq_false_iff_not]
          constructor
          · rintro ⟨⟨hs, hni⟩, ht⟩
            refine ⟨hs, ?_, ht⟩
            intro j hj
            cases hj
            exact hni
          · rintro ⟨hs, he1, ht⟩
            exact ⟨⟨hs, he1 i rfl⟩, ht⟩

/-- Selection for deletion is pointwise: an event is selected exactly when
it is in the calendar and is a target of the date. -/
theorem mem_eventsToDelete (cal : List CalEvent) (dateStr : String) (x : CalEvent) :
    x ∈ eventsToDelete cal dateStr ↔ x ∈ cal ∧ isTarget dateStr x = true := by
  unfold eventsToDelete fetchedEvents isTarget
  cases parseDate dateStr with
  | none => simp
  | some day =>
      rw [List.filter_filter]
      rw [List.mem_filter]
      rw [Bool.and_comm]

/-- The state after removeAll on one date only loses events. -/
theorem mem_removeAllDate_sub {cid : String} {cal : List CalEvent} {d : String}
    {x : CalEvent} (h : x ∈ (removeAllDate cid cal d).cal) : x ∈ cal :=
  ((mem_deleteFold _ _ _).mp h).1

/-- A selected event with an identifier does not survive removeAll on its
date. -/
theorem removeAllDate_kills {cid : String} {cal : List CalEvent} {d : String}
    {x : CalEvent} {i : String}
    (hx : x ∈ eventsToDelete cal d) (hi : x.id = some i) :
    x ∉ (removeAllDate cid cal d).cal := by
  intro hmem
  obtain ⟨-, hall⟩ := (mem_deleteFold _ _ _).mp hmem
  exact hall x hx i hi hi

/-- The state after removeAll on a list of dates only loses events. -/
theorem mem_removeAllRun_sub {cid : String} :
    ∀ (dates : List String) (cal : List CalEvent) (x : CalEvent),
      x ∈ (removeAllRun cid cal dates).cal → x ∈ cal := by
  intro dates
  induction dates with
  | nil => intro cal x h; exact h
  | cons d rest ih =>
      intro cal x h
      exact mem_removeAllDate_sub (ih (removeAllDate cid cal d).cal x h)

/-- After removeAll over a list of dates, no surviving event with an
identifier is a target of any processed date. -/
theorem removeAllRun_kills {cid : String} :
    ∀ (dates : List String) (cal : List CalEvent) (d : String) (x : CalEvent)
      (i : String), d ∈ dates → x ∈ (removeAllRun cid cal dates).cal →
      x.id = some i → isTarget d x = true → False := by
  intro dates
  induction dates with
  | nil => intro cal d x i hd; cases hd
  | cons d₀ rest ih =>
      intro cal d x i hd hx hid htar
      rcases List.mem_cons.mp hd with h | h
      · subst h
        have hx₀ : x ∈ (removeAllDate cid cal d).cal :=
          mem_removeAllRun_sub rest _ x hx
        have hcal : x ∈ cal := mem_removeAllDate_sub hx₀
        exact removeAllDate_kills
          ((mem_eventsToDelete cal d x).mpr ⟨hcal, htar⟩) hid hx₀
      · exact ih (removeAllDate cid cal d₀).cal d x i h hx hid htar

/-- When no event of the calendar is an identified target of any of the
dates, a removeAll pass deletes nothing. -/
theorem removeAllRun_deleted_zero {cid : String} :
    ∀ (dates : List String) (cal : List CalEvent),
      (∀ d ∈ dates, ∀ x ∈ cal, ∀ i, x.id = some i → isTarget d x = true → False) →
      (removeAllRun cid cal dates).deleted = 0 := by
  intro dates
  induction dates with
  | nil => intro cal _; rfl
  | cons d rest ih =>
      intro cal h
      have h₁ : (removeAllDate cid cal d).deleted = 0 := by
        show ((eventsToDelete cal d).filterMap CalEvent.id).length = 0
        rw [List.length_eq_zero]
        rw [List.filterMap_eq_nil_iff]
        intro x hx
        cases hxi : x.id with
        | none => rfl
        | some i =>
            obtain ⟨hcal, htar⟩ := (mem_eventsToDelete cal d x).mp hx
            exact absurd htar (by intro ht; exact h d (by simp) x hcal i hxi ht)
      have h₂ : (removeAllRun cid (removeAllDate cid cal d).cal rest).deleted = 0 := by
        apply ih
        intro d' hd' x hx i hid ht
        exact h d' (by simp [hd']) x (mem_removeAllDate_sub hx) i hid ht
      show (removeAllDate cid cal d).deleted +
        (removeAllRun cid (removeAllDate cid cal d).cal rest).deleted = 0
      rw [h₁, h₂]

/-- Claim C2: removeAll is idempotent with respect to the external
calendar: a second pass over the same dates deletes nothing (and returns a
success message, not an error), and on a date with no selected events a
pass deletes nothing and leaves the calendar unchanged. -/
theorem removeAll_idempotent :
    (∀ (cid : String) (cal : List CalEvent) (dates : List String),
      (removeAllRun cid (removeAllRun cid cal dates).cal dates).deleted = 0) ∧
    (∀ (cid : String) (cal : List CalEvent) (d : String),
      eventsToDelete cal d = [] →
      (removeAllDate cid cal d).deleted = 0 ∧ (removeAllDate cid cal d).cal = cal) := by
  constructor
  · intro cid cal dates
    apply removeAllRun_deleted_zero
    intro d hd x hx i hid ht
    exact removeAllRun_kills dates cal d x i hd hx hid ht
  · intro cid cal d h
    constructor
    · show ((eventsToDelete cal d).filterMap CalEvent.id).length = 0
      rw [h]
      rfl
    · show deleteFold (eventsToDelete cal d) cal = cal
      rw [h]
      rfl

/-- Witness for C2: a concrete second pass deletes zero events, and a date
with no matching events yields a zero count and an unchanged calendar. -/
theorem removeAll_idempotent_witness :
    (removeAllRun "cal-vivek"
      (removeAllRun "cal-vivek" [calEvtA, calEvtNoId] ["2025-01-10"]).cal
      ["2025-01-10"]).deleted = 0 ∧
    ((removeAllDate "cal-vivek" [calEvtA] "2025-01-11").deleted = 0 ∧
      (removeAllDate "cal-vivek" [calEvtA] "2025-01-11").cal = [calEvtA]) :=
  ⟨removeAll_idempotent.1 "cal-vivek" [calEvtA, calEvtNoId] ["2025-01-10"],
   removeAll_idempotent.2 "cal-vivek" [calEvtA] "2025-01-11" (by decide)⟩

/-! ## C1: addAll with one event and one date -/

/-- Counterexample to claim C1 as stated: for an addAll request with
exactly one event and one date, the handler issues two external
create-event calls, not one (the five-minute marker window hh:00 to hh:05
and the content window hh:10 to hh:50), and the response message reports a
count of two. -/
theorem addAll_one_slot_counterexample :
    (POSThandler envHome reqAddOne [] okAll).2.1 =
      [ExtCall.insert "cal-vivek" "Math" (descriptionOf mathEvt)
        "2025-01-10T09:00:00" "2025-01-10T09:05:00",
       ExtCall.insert "cal-vivek" "Math" (descriptionOf mathEvt)
        "2025-01-10T09:10:00" "2025-01-10T09:50:00"] ∧
    (POSThandler envHome reqAddOne [] okAll).2.1.length ≠ 1 ∧
    (POSThandler envHome reqAddOne [] okAll).1.body =
      "2 events added to calendar for 2025-01-10 successfully!" :=
  ⟨by decide, by decide, by decide⟩

/-- Claim C1 (amended): for every addAll request with exactly one event and
one date whose constructed slot timestamps are valid and whose two insert
calls succeed, the handler issues exactly two external create-event calls,
the marker window from the slot hour hh:00 to hh:05 and the content window
from hh:10 to hh:50 (ending fifty minutes after the slot hour), and the
response message reports a success count of two. -/
theorem addAll_one_event_one_date
    (env : Env) (req : PostRequest) (body : PostBody) (cal : List CalEvent)
    (ok : Nat → Bool) (cid d hh : String) (evt : Event) (k : ServiceKeys)
    (hcid : (env.calendarIds.find? (fun p => p.fst = req.name.getD "Vivek")).map
      Prod.snd = some cid)
    (hkeys : env.keys = some k)
    (hbody : req.body = some body)
    (haction : body.action = "addAll")
    (hev : body.events = some [evt])
    (hdates : body.dates = some [d])
    (hrange : body.isRangeMode = false)
    (hhour : hourOf evt.start = some hh)
    (h1 : (parseLocalDT (d ++ "T" ++ hh ++ ":00:00")).isSome = true)
    (h2 : (parseLocalDT (d ++ "T" ++ hh ++ ":05:00")).isSome = true)
    (h3 : (parseLocalDT (d ++ "T" ++ hh ++ ":10:00")).isSome = true)
    (h4 : (parseLocalDT (d ++ "T" ++ hh ++ ":50:00")).isSome = true)
    (hok0 : ok 0 = true) (hok1 : ok 1 = true) :
    POSThandler env req cal ok =
      (⟨200, "2 events added to calendar for " ++ d ++ " successfully!"⟩,
       [ExtCall.insert cid evt.title (descriptionOf evt)
          (d ++ "T" ++ hh ++ ":00:00") (d ++ "T" ++ hh ++ ":05:00"),
        ExtCall.insert cid evt.title (descriptionOf evt)
          (d ++ "T" ++ hh ++ ":10:00") (d ++ "T" ++ hh ++ ":50:00")],
       cal) := by
  have hauth : authenticate env.keys "Home" =
      .ok (((k.entries.find? (fun p => p.fst = "Home")).map Prod.snd).getD k.flat) := by
    rw [hkeys]
    rfl
  have hslots : runSlots ok cid evt (slotPairs d hh) 0 =
      ([ExtCall.insert cid evt.title (descriptionOf evt)
          (d ++ "T" ++ hh ++ ":00:00") (d ++ "T" ++ hh ++ ":05:00"),
        ExtCall.insert cid evt.title (descriptionOf evt)
          (d ++ "T" ++ hh ++ ":10:00") (d ++ "T" ++ hh ++ ":50:00")], 2, 2) := by
    simp [slotPairs, runSlots, h1, h2, h3, h4, hok0, hok1]
  have hevents : runEvents ok cid d [evt] 0 =
      .ok ([ExtCall.insert cid evt.title (descriptionOf evt)
          (d ++ "T" ++ hh ++ ":00:00") (d ++ "T" ++ hh ++ ":05:00"),
        ExtCall.insert cid evt.title (descriptionOf evt)
          (d ++ "T" ++ hh ++ ":10:00") (d ++ "T" ++ hh ++ ":50:00")], 2, 2) := by
    simp [runEvents, hhour, hslots]
  have hrun : runDates ok cid [evt] [d] 0 =
      .ok ([ExtCall.insert cid evt.title (descriptionOf evt)
          (d ++ "T" ++ hh ++ ":00:00") (d ++ "T" ++ hh ++ ":05:00"),
        ExtCall.insert cid evt.title (descriptionOf evt)
          (d ++ "T" ++ hh ++ ":10:00") (d ++ "T" ++ hh ++ ":50:00")], 2, 2) := by
    simp [runDates, hevents]
  have hmsg : addAllMessage 2 body [d] =
      "2 events added to calendar for " ++ d ++ " successfully!" := by
    unfold addAllMessage
    rw [hrange]
    simp only [if_false, Bool.false_eq_true, List.headD_cons]
    rw [show natToString 2 ++ " events added to calendar for " =
      "2 events added to calendar for " from by decide]
  simp only [POSThandler, hcid, hauth, hbody, haction, hev, hdates,
    datesToProcess, hrange, hrun, hmsg]
  simp
  rw [hrun]
  simp [hmsg]

/-- Witness for the amended C1 at the concrete scenario of the claim. -/
theorem addAll_one_event_one_date_witness :
    POSThandler envHome reqAddOne [] okAll =
      (⟨200, "2 events added to calendar for " ++ "2025-01-10" ++ " successfully!"⟩,
       [ExtCall.insert "cal-vivek" mathEvt.title (descriptionOf mathEvt)
          ("2025-01-10" ++ "T" ++ "09" ++ ":00:00")
          ("2025-01-10" ++ "T" ++ "09" ++ ":05:00"),
        ExtCall.insert "cal-vivek" mathEvt.title (descriptionOf mathEvt)
          ("2025-01-10" ++ "T" ++ "09" ++ ":10:00")
          ("2025-01-10" ++ "T" ++ "09" ++ ":50:00")],
       []) :=
  addAll_one_event_one_date envHome reqAddOne
    { action := "addAll", events := some [mathEvt], selectedDate := none,
      dates := some ["2025-01-10"], isRangeMode := false }
    [] okAll "cal-vivek" "2025-01-10" "09" mathEvt ⟨[], "sa-key"⟩
    (by decide) (by decide) rfl rfl rfl rfl rfl (by decide)
    (by decide) (by decide) (by decide) (by decide) rfl rfl

/-! ## C7: addAll is best effort but a missing T separator crashes it -/

/-- Counting successes over a window of call indices, first index split. -/
theorem countOk_succ (ok : Nat → Bool) (k n : Nat) :
    countOk ok k (n + 1) = (if ok k then 1 else 0) + countOk ok (k + 1) n := by
  unfold countOk
  rw [List.range_succ_eq_map, List.countP_cons, List.countP_map]
  have hc : ((fun j => ok (k + j)) ∘ Nat.succ) = (fun j => ok (k + 1 + j)) := by
    funext a
    simp only [Function.comp_apply]
    congr 1
    omega
  rw [hc]
  simp [Nat.add_comm]

/-- Counting successes over a window of call indices, split in two. -/
theorem countOk_add (ok : Nat → Bool) (k m n : Nat) :
    countOk ok k (m + n) = countOk ok k m + countOk ok (k + m) n := by
  induction m generalizing k with
  | zero => simp [countOk]
  | succ p ih =>
      have h1 : p + 1 + n = (p + n) + 1 := by omega
      rw [h1, countOk_succ, countOk_succ, ih (k + 1),
        show k + 1 + p = k + (p + 1) from by omega]
      exact (Nat.add_assoc _ _ _).symm

/-- The per-slot loop issues exactly the planned calls: the windows whose
timestamps parse, in order, each consuming one call index; the count is the
number of successes among those indices. -/
theorem runSlots_eq (ok : Nat → Bool) (cid : String) (evt : Event) :
    ∀ (slots : List (String × String)) (k : Nat),
      runSlots ok cid evt slots k =
        (slotPlan cid evt slots,
         countOk ok k (slotPlan cid evt slots).length,
         k + (slotPlan cid evt slots).length) := by
  intro slots
  induction slots with
  | nil => intro k; simp [runSlots, slotPlan, countOk]
  | cons p rest ih =>
      intro k
      obtain ⟨s, e⟩ := p
      by_cases hv : ((parseLocalDT s).isSome && (parseLocalDT e).isSome) = true
      · have hplan : slotPlan cid evt ((s, e) :: rest) =
            ExtCall.insert cid evt.title (descriptionOf evt) s e ::
              slotPlan cid evt rest := by
          simp only [slotPlan, List.filter_cons, hv, if_true]
          rfl
        simp only [runSlots, hv, if_true, ih (k + 1), hplan, List.length_cons,
          Prod.mk.injEq, true_and]
        constructor
        · rw [countOk_succ]
        · omega
      · have hv' : ((parseLocalDT s).isSome && (parseLocalDT e).isSome) = false := by
          simpa using hv
        have hplan : slotPlan cid evt ((s, e) :: rest) = slotPlan cid evt rest := by
          simp only [slotPlan, List.filter_cons, hv']
          rfl
        simp only [runSlots, hv', Bool.false_eq_true, if_false, ih k, hplan]

/-- The per-event loop for one date succeeds and issues the planned calls
when every start has a T separator. -/
theorem runEvents_eq (ok : Nat → Bool) (cid d : String) :
    ∀ (events : List Event) (k : Nat),
      (∀ evt ∈ events, (hourOf evt.start).isSome) →
      runEvents ok cid d events k =
        .ok (eventsPlan cid d events,
             countOk ok k (eventsPlan cid d events).length,
             k + (eventsPlan cid d events).length) := by
  intro events
  induction events with
  | nil => intro k _; simp [runEvents, eventsPlan, countOk]
  | cons evt rest ih =>
      intro k hT
      obtain ⟨hh, hhh⟩ := Option.isSome_iff_exists.mp (hT evt (by simp))
      have hrest : ∀ k', runEvents ok cid d rest k' =
          .ok (eventsPlan cid d rest,
               countOk ok k' (eventsPlan cid d rest).length,
               k' + (eventsPlan cid d rest).length) :=
        fun k' => ih k' (fun x hx => hT x (by simp [hx]))
      have hplan : eventsPlan cid d (evt :: rest) =
          slotPlan cid evt (slotPairs d hh) ++ eventsPlan cid d rest := by
        simp [eventsPlan, itemCalls, hhh]
      simp only [runEvents, hhh, runSlots_eq, hrest, hplan, List.length_append,
        Except.ok.injEq, Prod.mk.injEq, true_and]
      constructor
      · rw [countOk_add]
      · omega

/-- The per-date loop succeeds and issues the planned calls when every
start has a T separator. -/
theorem runDates_eq (ok : Nat → Bool) (cid : String) (events : List Event) :
    ∀ (dates : List String) (k : Nat),
      (∀ evt ∈ events, (hourOf evt.start).isSome) →
      runDates ok cid events dates k =
        .ok (addAllPlan cid dates events,
             countOk ok k (addAllPlan cid dates events).length,
             k + (addAllPlan cid dates events).length) := by
  intro dates
  induction dates with
  | nil => intro k _; simp [runDates, addAllPlan, countOk]
  | cons d rest ih =>
      intro k hT
      have hev : ∀ k', runEvents ok cid d events k' =
          .ok (eventsPlan cid d events,
               countOk ok k' (eventsPlan cid d events).length,
               k' + (eventsPlan cid d events).length) :=
        fun k' => runEvents_eq ok cid d events k' hT
      have hrest : ∀ k', runDates ok cid events rest k' =
          .ok (addAllPlan cid rest events,
               countOk ok k' (addAllPlan cid rest events).length,
               k' + (addAllPlan cid rest events).length) :=
        fun k' => ih k' hT
      have hplan : addAllPlan cid (d :: rest) events =
          eventsPlan cid d events ++ addAllPlan cid rest events := by
        simp [addAllPlan]
      simp only [runDates, hev, hrest, hplan, List.length_append,
        Except.ok.injEq, Prod.mk.injEq, true_and]
      constructor
      · rw [countOk_add]
      · omega

/-- Counterexample to claim C7 as stated: an addAll batch whose first event
has a start without a T separator crashes the whole request before any
insert is attempted, instead of skipping the item: the loop aborts with an
error, the sibling well-formed event is never attempted, and the handler
answers 500 with no calls issued. -/
theorem addAll_crash_counterexample :
    runDates okAll "cal-vivek" [badStartEvt, mathEvt] ["2025-01-10"] 0 =
      Except.error [] ∧
    (POSThandler envHome reqAddBadFirst [] okAll).1.status = 500 ∧
    (POSThandler envHome reqAddBadFirst [] okAll).2.1 = [] :=
  ⟨rfl, rfl, rfl⟩

/-- Claim C7 (amended): for every addAll batch in which each event start
contains a T separator, the loop never aborts: an item or date whose
constructed start or stop timestamps are invalid is skipped while the batch
continues, the set of issued insert calls does not depend on which calls
succeed (so one failed call never prevents the remaining ones from being
attempted), and the reported count is exactly the number of issued calls
whose oracle says success.  Without the separator hypothesis the loop can
abort, as the counterexample shows. -/
theorem addAll_best_effort (ok : Nat → Bool) (cid : String)
    (dates : List String) (events : List Event)
    (hT : ∀ evt ∈ events, (hourOf evt.start).isSome) :
    runDates ok cid events dates 0 =
      .ok (addAllPlan cid dates events,
           countOk ok 0 (addAllPlan cid dates events).length,
           (addAllPlan cid dates events).length) := by
  have h := runDates_eq ok cid events dates 0 hT
  simpa using h

/-- Witness for the amended C7: a batch with a valid event and an event
with an unparsable hour, over a good date and a nonsense date, under an
oracle that fails every call but the first: the nonsense parts are skipped,
both windows of the valid pairs are attempted, and the count is one. -/
theorem addAll_best_effort_witness :
    runDates (fun k => k == 0) "cal-vivek" [mathEvt, badHourEvt]
      ["2025-01-10", "nonsense"] 0 =
      .ok (addAllPlan "cal-vivek" ["2025-01-10", "nonsense"] [mathEvt, badHourEvt],
           countOk (fun k => k == 0) 0
             (addAllPlan "cal-vivek" ["2025-01-10", "nonsense"]
               [mathEvt, badHourEvt]).length,
           (addAllPlan "cal-vivek" ["2025-01-10", "nonsense"]
             [mathEvt, badHourEvt]).length) :=
  addAll_best_effort (fun k => k == 0) "cal-vivek" ["2025-01-10", "nonsense"]
    [mathEvt, badHourEvt] (by decide)

end CalSheet

